import Mathlib

/-!
Shallow embedding of the Athena Ingestion Module backend
(src/backend/{main, translation, metadata_extraction, text_extraction}.py).

Text is modelled as `List Char`; Python dicts whose values in this program
are strings, lists of strings or `None` are modelled as ordered association
lists over `PyVal`.  Calls into external collaborators (the ClamAV binary,
the remote translation service, PyPDF2 metadata, the OpenAI/yake
generators) are modelled as environment-supplied outcomes, following the
adapter boundaries of the system: the orchestrator and client control flow
is translated from the source line by line.
-/

/-! ## Python-value model -/

/-- Values that occur in the program's metadata dictionaries:
strings, lists of strings, and `None`. -/
inductive PyVal
  | str (s : String)
  | list (xs : List String)
  | none
deriving DecidableEq, Repr

/-- Python truthiness for the values above: `None`, `""` and `[]` are falsy. -/
def PyVal.truthy : PyVal → Bool
  | .str s => s ≠ ""
  | .list xs => xs ≠ []
  | .none => false

/-- An insertion-ordered dictionary with unique keys (Python `dict`). -/
abbrev PyDict := List (String × PyVal)

/-- `d.get(k)` — first binding of `k`, if any. -/
def dget (d : PyDict) (k : String) : Option PyVal :=
  (d.find? (fun p => p.1 = k)).map (fun p => p.2)

/-- `d[k] = v` — update in place if the key exists, else append. -/
def dset : PyDict → String → PyVal → PyDict
  | [], k, v => [(k, v)]
  | p :: t, k, v => if p.1 = k then (k, v) :: t else p :: dset t k v

/-- `k in d and bool(d[k])` — the key is present with a truthy value. -/
def dtruthy (d : PyDict) (k : String) : Bool :=
  match dget d k with
  | some v => v.truthy
  | Option.none => false

/-! ## Python `str.strip()` -/

/-- Python whitespace for default `str.strip()` (ASCII part:
space, tab, linefeed, vertical tab, formfeed, carriage return). -/
def pyIsSpace (c : Char) : Bool :=
  c.toNat = 32 ∨ c.toNat = 9 ∨ c.toNat = 10 ∨ c.toNat = 11 ∨
  c.toNat = 12 ∨ c.toNat = 13

/-- `text.strip()` on a character list. -/
def pyStrip (l : List Char) : List Char :=
  ((l.dropWhile pyIsSpace).reverse.dropWhile pyIsSpace).reverse

/-- `s.lower()` (ASCII part), character by character. -/
def pyLower (s : String) : String := String.mk (s.data.map Char.toLower)

/-! ## Translation client (src/backend/translation.py)

`translate_text` splits the input into chunks of at most `CHUNK_SIZE`
characters (`text[i:i + CHUNK_SIZE] for i in range(0, len(text), CHUNK_SIZE)`),
sends every chunk with up to `MAX_RETRIES` attempts, backing off
`2 ** (attempt + 1)` seconds on HTTP 429, and joins the translated chunks.
The remote service is an oracle mapping a chunk and an attempt number to an
outcome; every issued request, backoff wait and pacing sleep is recorded in
a trace so that the retry discipline is observable. -/

def CHUNK_SIZE : Nat := 4800

def MAX_RETRIES : Nat := 3

/-- The chunk list `[text[i:i + CHUNK_SIZE] for i in range(0, len(text), CHUNK_SIZE)]`. -/
def text_chunks (l : List Char) : List (List Char) :=
  if h : l = [] then []
  else l.take CHUNK_SIZE :: text_chunks (l.drop CHUNK_SIZE)
termination_by l.length
decreasing_by
  simp only [List.length_drop]
  have hl : 0 < l.length := List.length_pos.mpr h
  simp only [CHUNK_SIZE]
  omega

/-- Outcome of one `client.post` + `raise_for_status` round-trip. -/
inductive UpstreamOutcome
  | success (t : List Char)
  | status (code : Nat)
  | other
deriving DecidableEq, Repr

/-- Failure modes of `translate_text` as raised by the source:
`ValueError` for the missing API key, the re-raised
`httpx.HTTPStatusError` (carrying its status code) for upstream HTTP
failures — the failure the spec's taxonomy names `TranslationError` —
and any other propagated transport exception. -/
inductive TransErr
  | valueError
  | httpStatus (code : Nat)
  | otherUpstream
  | exhausted
deriving DecidableEq, Repr

/-- Observable actions of the client. -/
inductive TraceEv
  | request (chunk : List Char) (attempt : Nat)
  | wait (secs : Nat)
  | pacing
deriving DecidableEq, Repr

/-- The `for attempt in range(MAX_RETRIES)` retry loop for one chunk:
on success append the translation and sleep 1 second; on HTTP 429 with
attempts remaining wait `2 ** (attempt + 1)` seconds and continue; on any
other error (or 429 on the final attempt) re-raise. -/
def attempt_loop (resp : Nat → UpstreamOutcome) (chunk : List Char) :
    List Nat → Except TransErr (List Char) × List TraceEv
  | [] => (.error .exhausted, [])
  | a :: rest =>
    match resp a with
    | .success t => (.ok t, [.request chunk a, .pacing])
    | .status code =>
      if code = 429 ∧ a < MAX_RETRIES - 1 then
        let r := attempt_loop resp chunk rest
        (r.1, .request chunk a :: .wait (2 ^ (a + 1)) :: r.2)
      else
        (.error (.httpStatus code), [.request chunk a])
    | .other => (.error .otherUpstream, [.request chunk a])

/-- The outer `for chunk in text_chunks` loop: sequential per-chunk
translation, aborting on the first propagated failure. -/
def chunk_loop (resp : List Char → Nat → UpstreamOutcome) :
    List (List Char) → Except TransErr (List (List Char)) × List TraceEv
  | [] => (.ok [], [])
  | c :: cs =>
    match attempt_loop (resp c) c (List.range MAX_RETRIES) with
    | (.ok t, tr) =>
      let r := chunk_loop resp cs
      (r.1.map (fun ts => t :: ts), tr ++ r.2)
    | (.error e, tr) => (.error e, tr)

/-- `translate_text(text)`: fails with `ValueError` when
`TRANSLATOR_API_KEY` is unset, otherwise chunks, translates each chunk
with retry, and returns `"".join(translated_chunks)`. -/
def translate_text (apiKey : Option String)
    (resp : List Char → Nat → UpstreamOutcome) (text : List Char) :
    Except TransErr (List Char) × List TraceEv :=
  match apiKey with
  | Option.none => (.error .valueError, [])
  | some _ =>
    let r := chunk_loop resp (text_chunks text)
    (r.1.map List.flatten, r.2)

/-- The requests issued in a trace. -/
def traceRequests (tr : List TraceEv) : List TraceEv :=
  tr.filter (fun e => match e with | .request _ _ => true | _ => false)

/-- The backoff waits recorded in a trace, in order. -/
def traceWaits (tr : List TraceEv) : List Nat :=
  tr.filterMap (fun e => match e with | .wait s => some s | _ => Option.none)

/-- The identity service: every chunk translates to itself on the first try. -/
def idOracle : List Char → Nat → UpstreamOutcome :=
  fun c _ => .success c

/-! ## Metadata derivation (src/backend/metadata_extraction.py) -/

/-- Outcome of the call
`await translate_text(str(value), target_lang=target_lang)` at
metadata_extraction.py:52 (and its copies at lines 62 and 75).
`translate_text` (translation.py:11) accepts a single positional
parameter, so passing the keyword argument `target_lang` raises
`TypeError` before any request is issued; every such call site sits in a
`try`/`except` that keeps the original value. The outcome is therefore
always an error; the `Except` shape keeps the call sites' control flow. -/
def translate_text_kwcall : Except Unit String := .error ()

/-- `translate_metadata(metadata)`: drop falsy values; for
title/subject/abstract, author and keyword items, attempt a re-translation
(which `TypeError`s, see `translate_text_kwcall`) and keep the original
value on failure (`str(kw)` is the identity on the string items that occur). -/
def translate_metadata (md : PyDict) : PyDict :=
  if md = [] then []
  else
    md.foldl (fun translated p =>
      let key := p.1
      let value := p.2
      if ¬ value.truthy then translated
      else if key = "title" ∨ key = "subject" ∨ key = "abstract" then
        match translate_text_kwcall with
        | .ok t => dset translated key (.str t)
        | .error _ => dset translated key value
      else if key = "author" then
        match value with
        | .str _ =>
          (match translate_text_kwcall with
           | .ok t => dset translated key (.str t)
           | .error _ => dset translated key value)
        | _ => dset translated key value
      else if key = "keywords" then
        match value with
        | .list kws =>
          dset translated key (.list (kws.map (fun kw =>
            match translate_text_kwcall with
            | .ok t => t
            | .error _ => kw)))
        | _ => dset translated key value
      else dset translated key value) []

/-- Step 6 of `process_file_metadata`: drop `None` and `""` values and
collapse single-element lists to their element, except for the `authors`
and `keywords` keys. -/
def cleanup_metadata (d : PyDict) : PyDict :=
  d.foldl (fun cleaned p =>
    let k := p.1
    let v := p.2
    if v = PyVal.none ∨ v = PyVal.str "" then cleaned
    else
      match v with
      | .list [x] =>
        if ¬ (k = "authors" ∨ k = "keywords") then dset cleaned k (.str x)
        else dset cleaned k v
      | _ => dset cleaned k v) []

/-- First block of step 7 of `process_file_metadata`:
`if 'title' not in cleaned_metadata or not cleaned_metadata['title']`,
default the title to the base filename. -/
def ensure_title (base : String) (d : PyDict) : PyDict :=
  if ¬ dtruthy d "title" then dset d "title" (.str base) else d

/-- The two identical "ensure ... is always a list" blocks of step 7 of
`process_file_metadata`: when the key is absent or falsy substitute the
singleton default list, and wrap a bare string in a singleton list. -/
def ensure_list_field (k dflt : String) (d : PyDict) : PyDict :=
  if ¬ dtruthy d k then dset d k (.list [dflt])
  else
    match dget d k with
    | some (.str s) => dset d k (.list [s])
    | _ => d

/-- Step 7 of `process_file_metadata`: default the title to the base
filename, and force `authors` and `keywords` to be present, truthy and
lists (a bare string is wrapped in a singleton list). -/
def ensure_required_fields (base : String) (d0 : PyDict) : PyDict :=
  ensure_list_field "keywords" "general"
    (ensure_list_field "authors" "No Authors" (ensure_title base d0))

/-- External outcomes consumed by `process_file_metadata`:
the PyPDF2 metadata dict (`extract_metadata_from_pdf` returns `{}` or a
partial dict, never raising), and the abstract/keyword generators
(`generate_abstract`, `generate_keywords`, and the inline yake fallback);
each generator is wrapped in a `try`/`except` at its call site, so a raise
is modelled as `.error`. -/
structure MetaEnv where
  pdfMeta : PyDict
  absResult : Except Unit String
  kwResult : Except Unit (List String)
  yakeKeywords : Except Unit (List String)
deriving Repr

/-- Steps 1-4 of `process_file_metadata`: PDF metadata (translated when
nonempty), the authors default, abstract generation with its fallback, and
keyword generation with its yake and "general" fallbacks. -/
def derived_metadata_raw (env : MetaEnv) (file_ext : String)
    (text_content : List Char) : PyDict :=
  let final0 : PyDict :=
    if pyLower file_ext = ".pdf" then
      if env.pdfMeta ≠ [] then translate_metadata env.pdfMeta else env.pdfMeta
    else []
  let final1 :=
    if ¬ dtruthy final0 "author" ∧ ¬ dtruthy final0 "authors" then
      dset final0 "authors" (.list ["No Authors"])
    else final0
  let final2 :=
    if ¬ dtruthy final1 "abstract" then
      match env.absResult with
      | .ok a => dset final1 "abstract" (.str a)
      | .error _ => dset final1 "abstract" (.str "Abstract could not be generated.")
    else final1
  let keywordBlock : Except Unit (List String) := do
    let ks ← env.kwResult
    if ks = [] ∧ pyStrip text_content ≠ [] then env.yakeKeywords else pure ks
  if ¬ dtruthy final2 "keywords" then
    match keywordBlock with
    | .ok ks => dset final2 "keywords" (if ks ≠ [] then .list ks else .list ["general"])
    | .error _ => dset final2 "keywords" (.list ["general"])
  else final2

/-- `process_file_metadata(file_path, file_ext, text_content)`: steps 1-4
(`derived_metadata_raw`), step 5 (`translate_metadata`), step 6
(`cleanup_metadata`), step 7 (`ensure_required_fields`).
`base` is `os.path.splitext(os.path.basename(file_path))[0]`. -/
def process_file_metadata (env : MetaEnv) (base file_ext : String)
    (text_content : List Char) : PyDict :=
  ensure_required_fields base
    (cleanup_metadata (translate_metadata (derived_metadata_raw env file_ext text_content)))

/-! ## Pipeline orchestrator (src/backend/main.py)

One job's run is a pure state transformer over the job's share of the
artifact store and the sequence of status events the job puts on the
global status queue.  Adapter calls (the ClamAV subprocess, the text
extractor for the job's extension, the translation client, the metadata
deriver) are environment-supplied outcomes: `.error` models the call
raising.  Filesystem writes are assumed to succeed. `filename` is the
original name (equal to `os.path.basename(file_path)`), `base` the name
without its extension. -/

/-- One job's view of the uploads directory. -/
structure FS where
  originalExists : Bool
  translated : Option (List Char)
  metadataJson : Option PyDict
deriving DecidableEq, Repr

/-- A status message put on the global `status_queue`. -/
structure StatusEvent where
  filename : String
  status : String
  detail : Option String := Option.none
deriving DecidableEq, Repr

/-- Job state: the artifact store slice plus the job's emitted events. -/
structure JobState where
  fs : FS
  events : List StatusEvent
deriving DecidableEq, Repr

def push (st : JobState) (e : StatusEvent) : JobState :=
  { st with events := st.events ++ [e] }

def scanningEv (f : String) : StatusEvent := ⟨f, "Scanning for malware...", Option.none⟩

def processingEv (f : String) : StatusEvent := ⟨f, "Processing...", Option.none⟩

def translatingEv (f : String) : StatusEvent := ⟨f, "Translating...", Option.none⟩

def extractingMetadataEv (f : String) : StatusEvent := ⟨f, "Extracting Metadata...", Option.none⟩

def completeEv (f : String) : StatusEvent := ⟨f, "Complete", some "Processing finished successfully."⟩

def errorEv (f d : String) : StatusEvent := ⟨f, "Error", some d⟩

/-- A raised `fastapi.HTTPException`. -/
structure HttpExc where
  status_code : Nat
  detail : String
deriving DecidableEq, Repr

/-- Outcome of `subprocess.run(["clamscan", ...])`: a completed run with a
return code, the executable being absent (`FileNotFoundError`), or any
other exception. -/
inductive ScanOutcome
  | ret (returncode : Nat)
  | fileNotFound
  | otherExc
deriving DecidableEq, Repr

/-- What the `try` body of `scan_file` does before any handler runs:
a clean run (return code 0) returns; return code 1 removes the file and
raises the 400 malware `HTTPException`; any other nonzero return code
removes the file and raises the 500 scanning-error `HTTPException`; an
absent `clamscan` binary raises `FileNotFoundError`; anything else raises
some other exception. -/
inductive ScanTryResult
  | ok
  | raised (e : HttpExc)
  | fileNotFoundErr
  | otherRaise
deriving DecidableEq, Repr

def scan_file_try : ScanOutcome → String → FS → ScanTryResult × FS
  | .ret 1, filename, fs =>
    (.raised ⟨400, "Malware detected in file: " ++ filename ++ ". Upload rejected."⟩,
     { fs with originalExists := false })
  | .ret rc, _, fs =>
    if rc ≠ 0 then
      (.raised ⟨500, "An error occurred during malware scanning. The file has been removed."⟩,
       { fs with originalExists := false })
    else (.ok, fs)
  | .fileNotFound, _, fs => (.fileNotFoundErr, fs)
  | .otherExc, _, fs => (.otherRaise, fs)

/-- `scan_file(file_path)`: the `try` body (`scan_file_try`) followed by
the handlers.  `except FileNotFoundError` logs and swallows the missing
binary.  Every other raise — including the two `HTTPException`s raised in
the `try` body itself, since `fastapi.HTTPException` subclasses
`Exception` — is caught by the `except Exception` clause at main.py:111,
which removes the file if still present and raises
`HTTPException(500, "An unexpected server error occurred during file
security processing.")` in its place.  The inner malware / scan-error
details therefore never escape this function. -/
def scan_file (outcome : ScanOutcome) (filename : String) (fs : FS) :
    Except HttpExc Unit × FS :=
  match scan_file_try outcome filename fs with
  | (.ok, fs1) => (.ok (), fs1)
  | (.fileNotFoundErr, fs1) => (.ok (), fs1)
  | (.raised _, fs1) =>
    (.error ⟨500, "An unexpected server error occurred during file security processing."⟩,
     { fs1 with originalExists := false })
  | (.otherRaise, fs1) =>
    (.error ⟨500, "An unexpected server error occurred during file security processing."⟩,
     { fs1 with originalExists := false })

/-- Adapter outcomes for one job's pipeline run. -/
structure PipeEnv where
  scan : ScanOutcome
  extract : Except String (List Char)
  translate : Except String (List Char)
  derive : Except String PyDict
deriving Repr

/-- The keys of the `text_extractors` dict in `process_and_translate_file`. -/
def text_extractor_keys : List String :=
  [".pdf", ".docx", ".txt", ".html", ".xml", ".tex"]

/-- `text_extractors.get(file_ext)` is not `None`. -/
def has_text_extractor (file_ext : String) : Bool :=
  text_extractor_keys.contains file_ext

/-- The `minimal_metadata` default dict of `process_and_save_metadata`. -/
def minimal_metadata (base : String) : PyDict :=
  [("title", .str base), ("authors", .list ["No Authors"]),
   ("abstract", .str "No abstract available"), ("keywords", .list ["general"])]

/-- `process_and_save_metadata(file_path, file_ext, text_content, filename)`:
emit the metadata status event; on deriver success write the derived dict
(substituting `minimal_metadata` if it is empty); on a raise write
`minimal_metadata` annotated with an `error` entry.  Never raises. -/
def process_and_save_metadata (derive : Except String PyDict)
    (base filename : String) (st : JobState) : JobState × PyDict :=
  let st := push st (extractingMetadataEv filename)
  match derive with
  | .ok md =>
    let md := if md = [] then minimal_metadata base else md
    ({ st with fs := { st.fs with metadataJson := some md } }, md)
  | .error emsg =>
    let md := dset (minimal_metadata base) "error"
      (.str ("Error processing metadata for " ++ filename ++ ": " ++ emsg))
    ({ st with fs := { st.fs with metadataJson := some md } }, md)

/-- `process_and_translate_file(file_path, file_ext, filename)`: look up the
extractor (returning silently when none is registered), extract
(returning silently on empty/whitespace-only text), translate, derive and
save metadata, and save the translated file.  The enclosing
`try`/`except` (main.py:166) swallows any raise from extraction or
translation, leaving the state as already mutated. -/
def process_and_translate_file (env : PipeEnv) (file_ext base filename : String)
    (st : JobState) : JobState :=
  if ¬ has_text_extractor file_ext then st
  else
    let st := push st (processingEv filename)
    match env.extract with
    | .error _ => st
    | .ok original_text =>
      if pyStrip original_text = [] then st
      else
        let st := push st (translatingEv filename)
        match env.translate with
        | .error _ => st
        | .ok translated_text =>
          let r := process_and_save_metadata env.derive base filename st
          let st := r.1
          if translated_text ≠ [] then
            { st with fs := { st.fs with translated := some translated_text } }
          else st

/-- A per-file entry of the `/upload` response's `details` array. -/
structure UploadDetail where
  filename : String
  status : String
  error : Option String := Option.none
deriving DecidableEq, Repr

/-- `process_file_in_background(filename, file_ext, file_path)`: emit the
scanning event, scan; on an `HTTPException` from the scan remove the file
if it still exists and emit a terminal Error event; otherwise run
extraction/translation (which never raises), emit the terminal Complete
event, and report success.  The value is returned to the caller, which
awaits it. -/
def process_file_in_background (env : PipeEnv) (filename file_ext base : String)
    (st : JobState) : JobState × UploadDetail :=
  let st := push st (scanningEv filename)
  match scan_file env.scan filename st.fs with
  | (.ok _, fs1) =>
    let st := { st with fs := fs1 }
    let st := process_and_translate_file env file_ext base filename st
    let st := push st (completeEv filename)
    (st, ⟨filename, "success", Option.none⟩)
  | (.error exc, fs1) =>
    let st := { st with fs := { fs1 with originalExists := false } }
    let st := push st (errorEv filename exc.detail)
    (st, ⟨filename, "error", some exc.detail⟩)

def ALLOWED_EXTENSIONS : List String :=
  [".pdf", ".docx", ".txt", ".tex", ".html", ".xml"]

def MAX_FILE_SIZE : Nat := 50 * 1024 * 1024

/-- `process_single_file(file)`: reject disallowed extensions, save the
upload, reject and delete oversized files, then run — and await — the full
pipeline via `process_file_in_background`, returning its result as this
file's entry in the `/upload` response.  `file_ext` is
`os.path.splitext(filename)[1].lower()` and `size` the persisted byte
count; the `except` turns the two `HTTPException`s into error entries and
removes the file if present. -/
def process_single_file (env : PipeEnv) (filename file_ext base : String)
    (size : Nat) (st : JobState) : JobState × UploadDetail :=
  if ¬ ALLOWED_EXTENSIONS.contains file_ext then
    let st := { st with fs := { st.fs with originalExists := false } }
    (st, ⟨filename, "error",
      some ("Failed to process file " ++ filename ++ ": File type not allowed for " ++ filename)⟩)
  else
    let st := { st with fs := { st.fs with originalExists := true } }
    if size > MAX_FILE_SIZE then
      let st := { st with fs := { st.fs with originalExists := false } }
      (st, ⟨filename, "error",
        some ("Failed to process file " ++ filename ++ ": File size exceeds limit for " ++ filename)⟩)
    else
      process_file_in_background env filename file_ext base st

/-! ## Status broadcast hub (src/backend/main.py:40-55)

`status_queue = asyncio.Queue()` with `status_event_generator` doing
`await asyncio.wait_for(status_queue.get(), timeout=1.0)` per connected
client.  The model: a FIFO queue of events, a list of subscriber logs
(one per connected generator, in connection order), and a ghost `published`
history recording every publish.  `deliver i` is one loop iteration of
subscriber `i`'s generator: it pops the front of the queue into that
subscriber's log, or does nothing (yielding a keep-alive) when the queue
is empty. -/

structure HubState where
  queue : List StatusEvent
  logs : List (List StatusEvent)
  published : List StatusEvent
deriving DecidableEq, Repr

inductive HubOp
  | publish (e : StatusEvent)
  | connect
  | deliver (i : Nat)
deriving DecidableEq, Repr

def hubStep (s : HubState) : HubOp → HubState
  | .publish e => { s with queue := s.queue ++ [e], published := s.published ++ [e] }
  | .connect => { s with logs := s.logs ++ [[]] }
  | .deliver i =>
    match s.queue with
    | [] => s
    | e :: rest =>
      if i < s.logs.length then
        { s with queue := rest, logs := s.logs.set i (s.logs.getD i [] ++ [e]) }
      else s

def hubInit : HubState := ⟨[], [], []⟩

def hubRun (ops : List HubOp) : HubState := ops.foldl hubStep hubInit

/-- Total number of events delivered to subscribers so far. -/
def deliveredCount (s : HubState) : Nat := (s.logs.map List.length).sum

/-! ## Helper lemmas: translation client -/

theorem text_chunks_flatten (l : List Char) : (text_chunks l).flatten = l := by
  induction l using text_chunks.induct with
  | case1 => simp [text_chunks]
  | case2 l hl ih =>
    rw [text_chunks]
    simp only [hl, dite_false, List.flatten_cons, ih, List.take_append_drop]

theorem text_chunks_bounded (l : List Char) :
    ∀ c ∈ text_chunks l, c.length ≤ CHUNK_SIZE := by
  induction l using text_chunks.induct with
  | case1 => simp [text_chunks]
  | case2 l hl ih =>
    rw [text_chunks]
    simp only [hl, dite_false, List.mem_cons]
    intro c hc
    rcases hc with hc | hc
    · subst hc
      simpa using List.length_take_le CHUNK_SIZE l
    · exact ih c hc

theorem chunk_loop_id (cs : List (List Char)) :
    chunk_loop idOracle cs = (.ok cs, cs.map (fun c => [.request c 0, .pacing])
      |>.flatten) := by
  induction cs with
  | nil => rfl
  | cons c cs ih =>
    simp only [chunk_loop, idOracle, attempt_loop, ih, List.map_cons, List.flatten_cons]
    rfl

theorem attempt_loop_429 (chunk : List Char) :
    attempt_loop (fun _ => .status 429) chunk (List.range MAX_RETRIES) =
      (.error (.httpStatus 429),
       [.request chunk 0, .wait 2, .request chunk 1, .wait 4, .request chunk 2]) := rfl

theorem attempt_loop_non429 (chunk : List Char) (c : Nat) (hc : c ≠ 429) :
    attempt_loop (fun _ => .status c) chunk (List.range MAX_RETRIES) =
      (.error (.httpStatus c), [.request chunk 0]) := by
  have : List.range MAX_RETRIES = [0, 1, 2] := rfl
  rw [this]
  simp [attempt_loop, hc]

theorem attempt_loop_other (chunk : List Char) :
    attempt_loop (fun _ => .other) chunk (List.range MAX_RETRIES) =
      (.error .otherUpstream, [.request chunk 0]) := rfl

theorem text_chunks_cons (text : List Char) (h : text ≠ []) :
    text_chunks text = text.take CHUNK_SIZE :: text_chunks (text.drop CHUNK_SIZE) := by
  rw [text_chunks]
  simp [h]

/-! ## Claim theorems: translation client -/

/-- C2: `translate_text` splits every input into consecutive chunks of at
most 4800 characters whose in-order concatenation is the original text,
and the final result is the ordered concatenation of the per-chunk
translations: under an identity translation the result is the original
text itself. -/
theorem chunk_reassembly_c2 (text : List Char) (k : String) :
    (∀ c ∈ text_chunks text, c.length ≤ CHUNK_SIZE) ∧
    (text_chunks text).flatten = text ∧
    (translate_text (some k) idOracle text).1 = .ok text := by
  refine ⟨text_chunks_bounded text, text_chunks_flatten text, ?_⟩
  simp [translate_text, chunk_loop_id, text_chunks_flatten, Except.map]

/-- Witness for C2 at a concrete input. -/
theorem chunk_reassembly_c2_witness :
    (∀ c ∈ text_chunks ['a', 'b'], c.length ≤ CHUNK_SIZE) ∧
    (text_chunks ['a', 'b']).flatten = ['a', 'b'] ∧
    (translate_text (some "key") idOracle ['a', 'b']).1 = .ok ['a', 'b'] :=
  chunk_reassembly_c2 ['a', 'b'] "key"

/-- C3: on a chunk whose every request returns HTTP 429, `translate_text`
issues exactly 3 requests with backoff waits of 2 then 4 seconds and
propagates the upstream failure (the spec's `TranslationError`) on the
third; on any other upstream error it propagates after a single request,
with no waits. -/
theorem retry_backoff_c3 (text : List Char) (h : text ≠ []) (k : String)
    (c : Nat) (hc : c ≠ 429) :
    ((translate_text (some k) (fun _ _ => .status 429) text).1 =
        .error (.httpStatus 429) ∧
      (traceRequests (translate_text (some k) (fun _ _ => .status 429) text).2).length = 3 ∧
      traceWaits (translate_text (some k) (fun _ _ => .status 429) text).2 = [2, 4]) ∧
    ((translate_text (some k) (fun _ _ => .status c) text).1 = .error (.httpStatus c) ∧
      (traceRequests (translate_text (some k) (fun _ _ => .status c) text).2).length = 1 ∧
      traceWaits (translate_text (some k) (fun _ _ => .status c) text).2 = []) ∧
    ((translate_text (some k) (fun _ _ => .other) text).1 = .error .otherUpstream ∧
      (traceRequests (translate_text (some k) (fun _ _ => .other) text).2).length = 1 ∧
      traceWaits (translate_text (some k) (fun _ _ => .other) text).2 = []) := by
  simp only [translate_text, text_chunks_cons text h, chunk_loop, attempt_loop_429,
    attempt_loop_non429 _ c hc, attempt_loop_other]
  simp [traceRequests, traceWaits, Except.map]

/-- Witness for C3 at a concrete input. -/
theorem retry_backoff_c3_witness :
    ((translate_text (some "key") (fun _ _ => .status 429) ['a']).1 =
        .error (.httpStatus 429) ∧
      (traceRequests (translate_text (some "key") (fun _ _ => .status 429) ['a']).2).length = 3 ∧
      traceWaits (translate_text (some "key") (fun _ _ => .status 429) ['a']).2 = [2, 4]) ∧
    ((translate_text (some "key") (fun _ _ => .status 500) ['a']).1 =
        .error (.httpStatus 500) ∧
      (traceRequests (translate_text (some "key") (fun _ _ => .status 500) ['a']).2).length = 1 ∧
      traceWaits (translate_text (some "key") (fun _ _ => .status 500) ['a']).2 = []) ∧
    ((translate_text (some "key") (fun _ _ => .other) ['a']).1 = .error .otherUpstream ∧
      (traceRequests (translate_text (some "key") (fun _ _ => .other) ['a']).2).length = 1 ∧
      traceWaits (translate_text (some "key") (fun _ _ => .other) ['a']).2 = []) :=
  retry_backoff_c3 ['a'] (by decide) "key" 500 (by decide)

/-- C10: with `TRANSLATOR_API_KEY` unset, `translate_text` fails with
`ValueError` — a failure mode distinct from the upstream error
constructors — with an empty trace: no chunk request is ever issued, for
every input text and every service behaviour. -/
theorem missing_api_key_c10 (text : List Char)
    (resp : List Char → Nat → UpstreamOutcome) :
    translate_text Option.none resp text = (.error .valueError, []) := rfl

/-! ## Claim theorems: pipeline orchestrator -/

/-- C1 counterexample: a job whose translation raises (scan clean,
extraction yields text) emits `Scanning → Processing → Translating →
Complete` — no Error StatusEvent at all — so the claim's transition to the
terminal Error state does not happen; the original file is indeed
retained. -/
theorem translation_failure_counterexample_c1 :
    ((process_file_in_background
        ⟨.ret 0, .ok ['h', 'i'], .error "translation failed", .ok []⟩
        "a.txt" ".txt" "a" ⟨⟨true, Option.none, Option.none⟩, []⟩).1.events =
      [scanningEv "a.txt", processingEv "a.txt", translatingEv "a.txt",
        completeEv "a.txt"]) ∧
    ((process_file_in_background
        ⟨.ret 0, .ok ['h', 'i'], .error "translation failed", .ok []⟩
        "a.txt" ".txt" "a" ⟨⟨true, Option.none, Option.none⟩, []⟩).1.events.all
      (fun e => e.status ≠ "Error")) = true ∧
    (process_file_in_background
        ⟨.ret 0, .ok ['h', 'i'], .error "translation failed", .ok []⟩
        "a.txt" ".txt" "a" ⟨⟨true, Option.none, Option.none⟩, []⟩).1.fs.originalExists =
      true ∧
    (process_file_in_background
        ⟨.ret 0, .ok ['h', 'i'], .error "translation failed", .ok []⟩
        "a.txt" ".txt" "a" ⟨⟨true, Option.none, Option.none⟩, []⟩).2 =
      ⟨"a.txt", "success", Option.none⟩ := by decide

/-- C1 amended: when the translation stage raises, the exception is
swallowed by `process_and_translate_file`'s `except` — the job emits no
Error StatusEvent and instead reaches the terminal Complete event, is
reported as a success, and leaves the filesystem untouched: the original
file is not deleted and no artifacts are written. -/
theorem translation_failure_swallowed_c1 (ex : Except String (List Char))
    (dr : Except String PyDict) (filename file_ext base emsg : String)
    (text : List Char) (st : JobState)
    (hext : has_text_extractor file_ext = true)
    (hne : pyStrip text ≠ []) :
    (process_file_in_background ⟨.ret 0, .ok text, .error emsg, dr⟩
        filename file_ext base st).1.events =
      st.events ++ [scanningEv filename, processingEv filename,
        translatingEv filename, completeEv filename] ∧
    (process_file_in_background ⟨.ret 0, .ok text, .error emsg, dr⟩
        filename file_ext base st).1.fs = st.fs ∧
    (process_file_in_background ⟨.ret 0, .ok text, .error emsg, dr⟩
        filename file_ext base st).2 = ⟨filename, "success", Option.none⟩ := by
  have _ := ex
  simp [process_file_in_background, scan_file, scan_file_try, process_and_translate_file,
    hext, hne, push]

/-- C1 amended witness at a concrete input. -/
theorem translation_failure_swallowed_c1_witness :
    (process_file_in_background ⟨.ret 0, .ok ['h', 'i'], .error "boom", .ok []⟩
        "a.txt" ".txt" "a" ⟨⟨true, Option.none, Option.none⟩, []⟩).1.events =
      [] ++ [scanningEv "a.txt", processingEv "a.txt",
        translatingEv "a.txt", completeEv "a.txt"] ∧
    (process_file_in_background ⟨.ret 0, .ok ['h', 'i'], .error "boom", .ok []⟩
        "a.txt" ".txt" "a" ⟨⟨true, Option.none, Option.none⟩, []⟩).1.fs =
      ⟨true, Option.none, Option.none⟩ ∧
    (process_file_in_background ⟨.ret 0, .ok ['h', 'i'], .error "boom", .ok []⟩
        "a.txt" ".txt" "a" ⟨⟨true, Option.none, Option.none⟩, []⟩).2 =
      ⟨"a.txt", "success", Option.none⟩ :=
  translation_failure_swallowed_c1 (.ok ['h', 'i']) (.ok []) "a.txt" ".txt" "a"
    "boom" ['h', 'i'] ⟨⟨true, Option.none, Option.none⟩, []⟩ (by decide) (by decide)

/-- C4 evidence: `/upload`'s per-file processing awaits the full pipeline.
For an accepted (valid-extension, size-ok) file whose scan verdict is
infected, `process_single_file` returns only after the pipeline has run to
its terminal state: the job's terminal Error event (carrying the generic
scan-failure detail that `scan_file`'s `except Exception` substitutes) is
already emitted at return time and the returned detail carries the
pipeline's outcome, not a mere submission acknowledgement. -/
theorem upload_awaits_pipeline_c4 :
    process_single_file ⟨.ret 1, .ok ['h'], .ok ['h'], .ok []⟩
        "doc.txt" ".txt" "doc" 10 ⟨⟨false, Option.none, Option.none⟩, []⟩ =
      (⟨⟨false, Option.none, Option.none⟩,
        [scanningEv "doc.txt",
         errorEv "doc.txt"
           "An unexpected server error occurred during file security processing."]⟩,
       ⟨"doc.txt", "error",
        some "An unexpected server error occurred during file security processing."⟩) := by
  decide

/-- C5 evidence: for an infected verdict (`clamscan` return code 1) the
artifact is deleted and the job ends in a terminal Error event, but the
event's detail — and the returned entry — is the generic "unexpected
server error" message, not the malware-detected message: the 400 malware
`HTTPException` built at main.py:97-100 is itself caught by the
`except Exception` at main.py:111 and replaced before it can reach the
Error StatusEvent.  The advancing verdicts behave as claimed: a clean
scan and a missing binary both return normally with the file kept, and an
internal scanner error (return code 2 here) deletes the file and ends the
job in Error.  Within `scan_file`'s own `try` body the malware detail is
constructed exactly as the claim says, which shows the replacement
happens in the handler, not in the verdict mapping. -/
theorem scan_infected_detail_c5 :
    (process_file_in_background ⟨.ret 1, .ok ['h'], .ok ['h'], .ok []⟩ "a.txt" ".txt" "a"
        ⟨⟨true, Option.none, Option.none⟩, []⟩).1.events =
      [scanningEv "a.txt",
       errorEv "a.txt"
         "An unexpected server error occurred during file security processing."] ∧
    (process_file_in_background ⟨.ret 1, .ok ['h'], .ok ['h'], .ok []⟩ "a.txt" ".txt" "a"
        ⟨⟨true, Option.none, Option.none⟩, []⟩).1.fs.originalExists = false ∧
    (process_file_in_background ⟨.ret 1, .ok ['h'], .ok ['h'], .ok []⟩ "a.txt" ".txt" "a"
        ⟨⟨true, Option.none, Option.none⟩, []⟩).2 =
      ⟨"a.txt", "error",
       some "An unexpected server error occurred during file security processing."⟩ ∧
    scan_file_try (.ret 1) "a.txt" ⟨true, Option.none, Option.none⟩ =
      (.raised ⟨400, "Malware detected in file: a.txt. Upload rejected."⟩,
       ⟨false, Option.none, Option.none⟩) ∧
    scan_file (.ret 0) "a.txt" ⟨true, Option.none, Option.none⟩ =
      (.ok (), ⟨true, Option.none, Option.none⟩) ∧
    scan_file .fileNotFound "a.txt" ⟨true, Option.none, Option.none⟩ =
      (.ok (), ⟨true, Option.none, Option.none⟩) ∧
    scan_file (.ret 2) "a.txt" ⟨true, Option.none, Option.none⟩ =
      (.error ⟨500, "An unexpected server error occurred during file security processing."⟩,
       ⟨false, Option.none, Option.none⟩) :=
  ⟨by decide, by decide, by decide, rfl, rfl, rfl, rfl⟩

/-- C6: a job whose extension has no registered extractor, or whose
extracted text is empty or whitespace-only, skips translation, metadata
derivation and persistence: it reaches the terminal Complete event with no
translated or metadata artifact written, and its result is reported as a
success, not an error. -/
theorem empty_extraction_completes_c6 (ex tr : Except String (List Char))
    (dr : Except String PyDict) (filename base file_ext1 file_ext2 : String)
    (text : List Char) (st : JobState)
    (h1 : has_text_extractor file_ext1 = false)
    (h2 : has_text_extractor file_ext2 = true)
    (hblank : pyStrip text = [])
    (htq : st.fs.translated = Option.none)
    (hmq : st.fs.metadataJson = Option.none) :
    ((process_file_in_background ⟨.ret 0, ex, tr, dr⟩ filename file_ext1 base st).1.events =
      st.events ++ [scanningEv filename, completeEv filename] ∧
     (process_file_in_background ⟨.ret 0, ex, tr, dr⟩ filename file_ext1 base st).1.fs.translated =
      Option.none ∧
     (process_file_in_background ⟨.ret 0, ex, tr, dr⟩ filename file_ext1 base st).1.fs.metadataJson =
      Option.none ∧
     (process_file_in_background ⟨.ret 0, ex, tr, dr⟩ filename file_ext1 base st).2 =
      ⟨filename, "success", Option.none⟩) ∧
    ((process_file_in_background ⟨.ret 0, .ok text, tr, dr⟩ filename file_ext2 base st).1.events =
      st.events ++ [scanningEv filename, processingEv filename, completeEv filename] ∧
     (process_file_in_background ⟨.ret 0, .ok text, tr, dr⟩ filename file_ext2 base st).1.fs.translated =
      Option.none ∧
     (process_file_in_background ⟨.ret 0, .ok text, tr, dr⟩ filename file_ext2 base st).1.fs.metadataJson =
      Option.none ∧
     (process_file_in_background ⟨.ret 0, .ok text, tr, dr⟩ filename file_ext2 base st).2 =
      ⟨filename, "success", Option.none⟩) := by
  constructor
  · simp [process_file_in_background, scan_file, scan_file_try, process_and_translate_file,
      h1, push, htq, hmq]
  · simp [process_file_in_background, scan_file, scan_file_try, process_and_translate_file,
      h2, hblank, push, htq, hmq]

/-- C6 witness at concrete inputs (`.docs` has no registered extractor;
`".txt"` has one and the extracted text is whitespace-only). -/
theorem empty_extraction_completes_c6_witness :
    ((process_file_in_background ⟨.ret 0, .ok [' '], .ok ['h'], .ok []⟩ "a.docs" ".docs" "a"
        ⟨⟨true, Option.none, Option.none⟩, []⟩).1.events =
      [] ++ [scanningEv "a.docs", completeEv "a.docs"] ∧
     (process_file_in_background ⟨.ret 0, .ok [' '], .ok ['h'], .ok []⟩ "a.docs" ".docs" "a"
        ⟨⟨true, Option.none, Option.none⟩, []⟩).1.fs.translated = Option.none ∧
     (process_file_in_background ⟨.ret 0, .ok [' '], .ok ['h'], .ok []⟩ "a.docs" ".docs" "a"
        ⟨⟨true, Option.none, Option.none⟩, []⟩).1.fs.metadataJson = Option.none ∧
     (process_file_in_background ⟨.ret 0, .ok [' '], .ok ['h'], .ok []⟩ "a.docs" ".docs" "a"
        ⟨⟨true, Option.none, Option.none⟩, []⟩).2 = ⟨"a.docs", "success", Option.none⟩) ∧
    ((process_file_in_background ⟨.ret 0, .ok [' '], .ok ['h'], .ok []⟩ "a.docs" ".txt" "a"
        ⟨⟨true, Option.none, Option.none⟩, []⟩).1.events =
      [] ++ [scanningEv "a.docs", processingEv "a.docs", completeEv "a.docs"] ∧
     (process_file_in_background ⟨.ret 0, .ok [' '], .ok ['h'], .ok []⟩ "a.docs" ".txt" "a"
        ⟨⟨true, Option.none, Option.none⟩, []⟩).1.fs.translated = Option.none ∧
     (process_file_in_background ⟨.ret 0, .ok [' '], .ok ['h'], .ok []⟩ "a.docs" ".txt" "a"
        ⟨⟨true, Option.none, Option.none⟩, []⟩).1.fs.metadataJson = Option.none ∧
     (process_file_in_background ⟨.ret 0, .ok [' '], .ok ['h'], .ok []⟩ "a.docs" ".txt" "a"
        ⟨⟨true, Option.none, Option.none⟩, []⟩).2 = ⟨"a.docs", "success", Option.none⟩) :=
  empty_extraction_completes_c6 (.ok [' ']) (.ok ['h']) (.ok []) "a.docs" "a" ".docs" ".txt"
    [' '] ⟨⟨true, Option.none, Option.none⟩, []⟩ (by decide) (by decide) (by decide)
    (by decide) (by decide)

/-- C7: when the metadata deriver raises, the job continues to the terminal
Complete event and is reported as a success, and the metadata artifact
written is the minimal fallback record (title = base filename,
authors = ["No Authors"], abstract default, keywords = ["general"])
annotated with an `error` entry carrying the failure detail; the translated
artifact is still written. -/
theorem metadata_failure_nonfatal_c7 (filename base file_ext emsg : String)
    (text ttext : List Char) (st : JobState)
    (hext : has_text_extractor file_ext = true)
    (hne : pyStrip text ≠ [])
    (htne : ttext ≠ []) :
    (process_file_in_background ⟨.ret 0, .ok text, .ok ttext, .error emsg⟩
        filename file_ext base st).1.fs.metadataJson =
      some [("title", .str base), ("authors", .list ["No Authors"]),
        ("abstract", .str "No abstract available"), ("keywords", .list ["general"]),
        ("error", .str ("Error processing metadata for " ++ filename ++ ": " ++ emsg))] ∧
    (process_file_in_background ⟨.ret 0, .ok text, .ok ttext, .error emsg⟩
        filename file_ext base st).1.fs.translated = some ttext ∧
    (process_file_in_background ⟨.ret 0, .ok text, .ok ttext, .error emsg⟩
        filename file_ext base st).1.events =
      st.events ++ [scanningEv filename, processingEv filename, translatingEv filename,
        extractingMetadataEv filename, completeEv filename] ∧
    (process_file_in_background ⟨.ret 0, .ok text, .ok ttext, .error emsg⟩
        filename file_ext base st).2 = ⟨filename, "success", Option.none⟩ := by
  simp [process_file_in_background, scan_file, scan_file_try, process_and_translate_file,
    process_and_save_metadata, minimal_metadata, dset, hext, hne, htne, push]

/-- C7 witness at a concrete input. -/
theorem metadata_failure_nonfatal_c7_witness :
    (process_file_in_background ⟨.ret 0, .ok ['h'], .ok ['t'], .error "deriver blew up"⟩
        "a.txt" ".txt" "a" ⟨⟨true, Option.none, Option.none⟩, []⟩).1.fs.metadataJson =
      some [("title", .str "a"), ("authors", .list ["No Authors"]),
        ("abstract", .str "No abstract available"), ("keywords", .list ["general"]),
        ("error", .str ("Error processing metadata for " ++ "a.txt" ++ ": " ++ "deriver blew up"))] ∧
    (process_file_in_background ⟨.ret 0, .ok ['h'], .ok ['t'], .error "deriver blew up"⟩
        "a.txt" ".txt" "a" ⟨⟨true, Option.none, Option.none⟩, []⟩).1.fs.translated =
      some ['t'] ∧
    (process_file_in_background ⟨.ret 0, .ok ['h'], .ok ['t'], .error "deriver blew up"⟩
        "a.txt" ".txt" "a" ⟨⟨true, Option.none, Option.none⟩, []⟩).1.events =
      [] ++ [scanningEv "a.txt", processingEv "a.txt", translatingEv "a.txt",
        extractingMetadataEv "a.txt", completeEv "a.txt"] ∧
    (process_file_in_background ⟨.ret 0, .ok ['h'], .ok ['t'], .error "deriver blew up"⟩
        "a.txt" ".txt" "a" ⟨⟨true, Option.none, Option.none⟩, []⟩).2 =
      ⟨"a.txt", "success", Option.none⟩ :=
  metadata_failure_nonfatal_c7 "a.txt" "a" ".txt" "deriver blew up" ['h'] ['t']
    ⟨⟨true, Option.none, Option.none⟩, []⟩ (by decide) (by decide) (by decide)

/-! ## Helper lemmas: dictionary operations and step 7 -/

theorem dget_cons_ne (p : String × PyVal) (t : PyDict) (k : String)
    (h : p.1 ≠ k) : dget (p :: t) k = dget t k := by
  simp [dget, List.find?, h]

theorem dget_cons_eq (p : String × PyVal) (t : PyDict) (k : String)
    (h : p.1 = k) : dget (p :: t) k = some p.2 := by
  simp [dget, List.find?, h]

theorem dget_dset_same (d : PyDict) (k : String) (v : PyVal) :
    dget (dset d k v) k = some v := by
  induction d with
  | nil => simp [dset, dget, List.find?]
  | cons p t ih =>
    by_cases hp : p.1 = k
    · rw [dset]
      simp only [hp, if_true]
      exact dget_cons_eq _ _ _ rfl
    · rw [dset]
      simp only [hp, if_false]
      rw [dget_cons_ne _ _ _ hp]
      exact ih

theorem dget_dset_other (d : PyDict) (k k' : String) (v : PyVal)
    (h : k' ≠ k) : dget (dset d k' v) k = dget d k := by
  induction d with
  | nil =>
    rw [dset]
    rw [dget_cons_ne _ _ _ h]
  | cons p t ih =>
    by_cases hp : p.1 = k'
    · rw [dset]
      simp only [hp, if_true]
      rw [dget_cons_ne _ _ _ h, dget_cons_ne _ _ _ (hp ▸ h)]
    · rw [dset]
      simp only [hp, if_false]
      by_cases hpk : p.1 = k
      · rw [dget_cons_eq _ _ _ hpk, dget_cons_eq _ _ _ hpk]
      · rw [dget_cons_ne _ _ _ hpk, dget_cons_ne _ _ _ hpk]
        exact ih

theorem ensure_list_field_is_list (k dflt : String) (d : PyDict) :
    ∃ xs, dget (ensure_list_field k dflt d) k = some (.list xs) := by
  rw [ensure_list_field]
  by_cases h : dtruthy d k
  · simp only [h, not_true, if_false]
    rcases hv : dget d k with _ | v
    · rw [dtruthy, hv] at h
      simp at h
    · cases v with
      | str s => exact ⟨[s], dget_dset_same d k (.list [s])⟩
      | list xs => exact ⟨xs, hv⟩
      | none =>
        rw [dtruthy, hv] at h
        simp [PyVal.truthy] at h
  · simp only [h, not_false_iff, if_true]
    exact ⟨[dflt], dget_dset_same d k (.list [dflt])⟩

theorem ensure_list_field_other (k dflt k' : String) (d : PyDict)
    (h : k ≠ k') : dget (ensure_list_field k dflt d) k' = dget d k' := by
  rw [ensure_list_field]
  by_cases hk : dtruthy d k
  · simp only [hk, not_true, if_false]
    rcases hv : dget d k with _ | v
    · rfl
    · cases v with
      | str s => exact dget_dset_other d k' k (.list [s]) h
      | list xs => rfl
      | none => rfl
  · simp only [hk, not_false_iff, if_true]
    exact dget_dset_other d k' k (.list [dflt]) h

theorem ensure_title_some (base : String) (d : PyDict) :
    (dget (ensure_title base d) "title").isSome = true := by
  rw [ensure_title]
  by_cases h : dtruthy d "title"
  · rw [if_neg (by simp [h])]
    rw [dtruthy] at h
    rcases hv : dget d "title" with _ | v
    · rw [hv] at h
      simp at h
    · simp [hv]
  · rw [if_pos (by simp [h])]
    rw [dget_dset_same]
    rfl

theorem ensure_required_fields_invariant (base : String) (d : PyDict) :
    (∃ xs, dget (ensure_required_fields base d) "authors" = some (.list xs)) ∧
    (∃ ys, dget (ensure_required_fields base d) "keywords" = some (.list ys)) ∧
    (dget (ensure_required_fields base d) "title").isSome = true := by
  rw [ensure_required_fields]
  refine ⟨?_, ensure_list_field_is_list _ _ _, ?_⟩
  · rw [ensure_list_field_other "keywords" "general" "authors" _ (by decide)]
    exact ensure_list_field_is_list _ _ _
  · rw [ensure_list_field_other "keywords" "general" "title" _ (by decide),
      ensure_list_field_other "authors" "No Authors" "title" _ (by decide)]
    exact ensure_title_some base _

theorem derived_metadata_raw_nonpdf (env : MetaEnv) (file_ext : String)
    (text_content : List Char) (hpdf : pyLower file_ext ≠ ".pdf")
    (hkw : env.kwResult = .ok []) (hyake : env.yakeKeywords = .ok []) :
    ∃ A, derived_metadata_raw env file_ext text_content =
      [("authors", .list ["No Authors"]), ("abstract", .str A),
       ("keywords", .list ["general"])] := by
  rw [derived_metadata_raw]
  simp only [hpdf, if_false, hkw, hyake]
  rcases env.absResult with _ | a
  all_goals by_cases hts : pyStrip text_content = []
  all_goals
    simp [dset, dget, dtruthy, List.find?, hts, Except.pure, pure, bind, Except.bind]
  all_goals exact ⟨_, rfl⟩

/-- C8: every record returned by `process_file_metadata` has `authors` and
`keywords` keys whose values are lists (never a bare string), and a
`title`; and when nothing is derived (non-PDF source, so no source
metadata, and keyword generation comes back empty), the defaults
`title = base filename`, `authors = ["No Authors"]`,
`keywords = ["general"]` are substituted. -/
theorem metadata_record_invariant_c8 (env : MetaEnv) (base file_ext : String)
    (text_content : List Char) :
    (∃ xs, dget (process_file_metadata env base file_ext text_content) "authors" =
      some (.list xs)) ∧
    (∃ ys, dget (process_file_metadata env base file_ext text_content) "keywords" =
      some (.list ys)) ∧
    (dget (process_file_metadata env base file_ext text_content) "title").isSome = true ∧
    (pyLower file_ext ≠ ".pdf" →
      env.kwResult = .ok [] → env.yakeKeywords = .ok [] →
      dget (process_file_metadata env base file_ext text_content) "title" =
        some (.str base) ∧
      dget (process_file_metadata env base file_ext text_content) "authors" =
        some (.list ["No Authors"]) ∧
      dget (process_file_metadata env base file_ext text_content) "keywords" =
        some (.list ["general"])) := by
  obtain ⟨h1, h2, h3⟩ := ensure_required_fields_invariant base
    (cleanup_metadata (translate_metadata (derived_metadata_raw env file_ext text_content)))
  refine ⟨h1, h2, h3, ?_⟩
  intro hpdf hkw hyake
  obtain ⟨A, hA⟩ := derived_metadata_raw_nonpdf env file_ext text_content hpdf hkw hyake
  rw [process_file_metadata, hA]
  by_cases hAe : A = ""
  · subst hAe
    simp [translate_metadata, cleanup_metadata, ensure_required_fields, ensure_list_field,
      ensure_title, translate_text_kwcall, dset, dget, dtruthy, List.find?, PyVal.truthy]
  · simp [translate_metadata, cleanup_metadata, ensure_required_fields, ensure_list_field,
      ensure_title, translate_text_kwcall, dset, dget, dtruthy, List.find?, PyVal.truthy, hAe]

/-- C8 witness at a concrete input (a `.txt` file with empty generator
results). -/
theorem metadata_record_invariant_c8_witness :
    (∃ xs, dget (process_file_metadata ⟨[], .ok "An abstract.", .ok [], .ok []⟩
      "doc" ".txt" ['h', 'i']) "authors" = some (.list xs)) ∧
    (∃ ys, dget (process_file_metadata ⟨[], .ok "An abstract.", .ok [], .ok []⟩
      "doc" ".txt" ['h', 'i']) "keywords" = some (.list ys)) ∧
    (dget (process_file_metadata ⟨[], .ok "An abstract.", .ok [], .ok []⟩
      "doc" ".txt" ['h', 'i']) "title").isSome = true ∧
    (dget (process_file_metadata ⟨[], .ok "An abstract.", .ok [], .ok []⟩
        "doc" ".txt" ['h', 'i']) "title" = some (.str "doc") ∧
     dget (process_file_metadata ⟨[], .ok "An abstract.", .ok [], .ok []⟩
        "doc" ".txt" ['h', 'i']) "authors" = some (.list ["No Authors"]) ∧
     dget (process_file_metadata ⟨[], .ok "An abstract.", .ok [], .ok []⟩
        "doc" ".txt" ['h', 'i']) "keywords" = some (.list ["general"])) := by
  obtain ⟨h1, h2, h3, h4⟩ := metadata_record_invariant_c8
    ⟨[], .ok "An abstract.", .ok [], .ok []⟩ "doc" ".txt" ['h', 'i']
  exact ⟨h1, h2, h3, h4 (by decide) rfl rfl⟩

/-! ## Helper lemmas: status broadcast hub -/

theorem sumLen_set {α : Type} (logs : List (List α)) (i : Nat) (e : α)
    (h : i < logs.length) :
    ((logs.set i (logs.getD i [] ++ [e])).map List.length).sum =
      (logs.map List.length).sum + 1 := by
  induction logs generalizing i with
  | nil => simp at h
  | cons hd tl ih =>
    cases i with
    | zero => simp [List.getD]; omega
    | succ n =>
      have hn : n < tl.length := by simpa using h
      have hih := ih n hn
      simp only [List.getD] at hih ⊢
      simp only [List.get?_cons_succ, List.set, List.map_cons, List.sum_cons]
      omega

theorem hubStep_preserves (s : HubState) (op : HubOp)
    (h1 : deliveredCount s ≤ s.published.length)
    (h2 : s.queue = s.published.drop (deliveredCount s)) :
    deliveredCount (hubStep s op) ≤ (hubStep s op).published.length ∧
    (hubStep s op).queue =
      (hubStep s op).published.drop (deliveredCount (hubStep s op)) := by
  obtain ⟨q, logs, pub⟩ := s
  simp only [deliveredCount] at h1 h2
  cases op with
  | publish e =>
    refine ⟨?_, ?_⟩
    · simp only [hubStep, deliveredCount, List.length_append]
      simpa using Nat.le_succ_of_le h1
    · simp only [hubStep, deliveredCount]
      rw [List.drop_append_of_le_length h1, ← h2]
  | connect =>
    refine ⟨?_, ?_⟩
    · simp only [hubStep, deliveredCount, List.map_append, List.sum_append]
      simpa using h1
    · simp only [hubStep, deliveredCount, List.map_append, List.sum_append]
      simpa using h2
  | deliver i =>
    cases q with
    | nil => exact ⟨h1, h2⟩
    | cons e rest =>
      by_cases hi : i < logs.length
      · have hlen : (logs.map List.length).sum + 1 ≤ pub.length := by
          have := congrArg List.length h2
          simp only [List.length_cons, List.length_drop] at this
          omega
        have hdrop : pub.drop ((logs.map List.length).sum + 1) = rest := by
          rw [← List.tail_drop, ← h2]
          rfl
        refine ⟨?_, ?_⟩
        · simp only [hubStep, hi, if_true, deliveredCount, sumLen_set logs i e hi]
          exact hlen
        · simp only [hubStep, hi, if_true, deliveredCount, sumLen_set logs i e hi]
          exact hdrop.symm
      · simp only [hubStep, hi, if_false]
        exact ⟨h1, h2⟩

theorem hubRun_aux (ops : List HubOp) (s : HubState)
    (h1 : deliveredCount s ≤ s.published.length)
    (h2 : s.queue = s.published.drop (deliveredCount s)) :
    deliveredCount (ops.foldl hubStep s) ≤ (ops.foldl hubStep s).published.length ∧
    (ops.foldl hubStep s).queue =
      (ops.foldl hubStep s).published.drop (deliveredCount (ops.foldl hubStep s)) := by
  induction ops generalizing s with
  | nil => exact ⟨h1, h2⟩
  | cons op rest ih =>
    obtain ⟨g1, g2⟩ := hubStep_preserves s op h1 h2
    exact ih (hubStep s op) g1 g2

/-! ## Claim theorems: status broadcast hub -/

/-- C9 counterexample: in the shared-queue hub, a subscriber that connects
after an event was published still receives that event (the queue retains
a backlog), and of two subscribers both connected at publish time only one
observes the event — the other's log stays empty. Both parts contradict
the claim's broadcast semantics. -/
theorem hub_counterexample_c9 :
    (hubRun [.publish (completeEv "a.txt"), .connect, .deliver 0]).logs =
      [[completeEv "a.txt"]] ∧
    (hubRun [.connect, .connect, .publish (completeEv "a.txt"),
      .deliver 0, .deliver 1]).logs = [[completeEv "a.txt"], []] := by decide

/-- C9 amended: the status hub is a single shared FIFO queue, not a
broadcast: after any sequence of publishes, connects and deliveries, the
events delivered so far are exactly the first `deliveredCount` published
events — each published event is consumed by at most one subscriber, in
global publish order — and the queue holds the remaining backlog in
publish order, so a subscriber connecting late can receive events
published before it connected. -/
theorem hub_fifo_queue_c9 (ops : List HubOp) :
    deliveredCount (hubRun ops) ≤ (hubRun ops).published.length ∧
    (hubRun ops).queue =
      (hubRun ops).published.drop (deliveredCount (hubRun ops)) :=
  hubRun_aux ops hubInit (by simp [deliveredCount, hubInit]) (by simp [hubInit])
